import Mathlib

/-!
Verification development for the Istanbul healthcare-accessibility repository.

The Python sources (src/data_collector.py, src/load_data.py, src/find_nearest.py,
src/spatial_analysis.py) are shallowly embedded below:

* coordinates are rational pairs; Euclidean distances are represented throughout
  by their squares (`dist2`), a strictly monotone encoding on nonnegative reals
  that keeps every value rational, preserves comparisons, minima and zero-ness
  (shapely's `point.distance` is the square root of `dist2`);
* district polygons are modelled as axis-aligned rectangles; the geopandas
  sjoin predicate `within` (DE-9IM: the point must meet the polygon interior,
  so boundary points do not match) becomes a strict-inequality box test;
* `to_crs` reprojection is modelled by an arbitrary point map `proj` supplied
  as a parameter, together with a CRS tag on every frame; point-in-interior
  tests are performed on source coordinates, which is equivalent because a CRS
  reprojection is a continuous bijection and preserves interior membership;
* IEEE floating-point special values produced by pandas/numpy division by zero
  (`0/0 = NaN`, `x/0 = ±inf`) are modelled by the inductive type `Flt`;
* a Python exception aborting a computation is modelled by an `Option` result
  being `none`.
-/

/-- A planar point with rational coordinates. -/
structure PtQ where
  x : ℚ
  y : ℚ
deriving DecidableEq

/-- Squared Euclidean distance between two points.  The code calls
`point.distance(other)`, the square root of this value; squares are used so
that every quantity stays rational, and minima/comparisons are unchanged. -/
def dist2 (p q : PtQ) : ℚ :=
  (p.x - q.x) ^ 2 + (p.y - q.y) ^ 2

/-- An axis-aligned rectangle, the polygon model for district boundaries
(`load_istanbul_districts` in src/load_data.py itself builds districts with
`shapely.geometry.box`). -/
structure Rect where
  xmin : ℚ
  ymin : ℚ
  xmax : ℚ
  ymax : ℚ
deriving DecidableEq

/-- The geopandas sjoin predicate `within` for a point and a polygon: the
DE-9IM `within` relation holds iff the point lies in the polygon's interior,
so a point on the boundary matches no polygon.  For a rectangle the interior
is the open box, hence strict inequalities. -/
def withinRect (p : PtQ) (r : Rect) : Bool :=
  decide (r.xmin < p.x) && decide (p.x < r.xmax) &&
    decide (r.ymin < p.y) && decide (p.y < r.ymax)

/-- Centroid of a rectangle, the model of `districts.geometry.centroid`
(src/spatial_analysis.py line 122). -/
def Rect.centroid (r : Rect) : PtQ :=
  ⟨(r.xmin + r.xmax) / 2, (r.ymin + r.ymax) / 2⟩

/-- The two coordinate reference systems appearing in the sources:
EPSG:4326 (geographic, angular units) and EPSG:32635 (UTM 35N, metric). -/
inductive CRS where
  | epsg4326 : CRS
  | epsg32635 : CRS
deriving DecidableEq

/-- Units in which a distance value is expressed. -/
inductive LUnit where
  | degrees : LUnit
  | meters : LUnit
  | kilometers : LUnit
deriving DecidableEq

/-- Native length unit of each reference system. -/
def CRS.units : CRS → LUnit
  | CRS.epsg4326 => LUnit.degrees
  | CRS.epsg32635 => LUnit.meters

/-- Whether a unit is metric (projected) rather than angular. -/
def LUnit.metric : LUnit → Bool
  | LUnit.degrees => false
  | LUnit.meters => true
  | LUnit.kilometers => true

/-- A distance value together with the unit it is expressed in.
`value2` is the squared magnitude (see `dist2`). -/
structure Measure where
  value2 : ℚ
  unit : LUnit
deriving DecidableEq

/-! ### src/data_collector.py : facility classification -/

/-- One OSM facility record as assembled by `fetch_healthcare_from_osm`:
`tags.get` defaults every missing tag to the empty string, so both fields are
always plain strings. -/
structure OsmRow where
  amenity : String
  healthcare : String
deriving DecidableEq

/-- Python's `str.title()` restricted to ASCII letters: a letter that follows
a non-letter is uppercased, a letter that follows a letter is lowercased,
non-letters pass through.  (Python also title-cases non-ASCII letters; the
claims do not depend on that difference.) -/
def pyTitleAux : Bool → List Char → List Char
  | _, [] => []
  | prev, c :: cs =>
    if c.isAlpha then
      (if prev then c.toLower else c.toUpper) :: pyTitleAux true cs
    else
      c :: pyTitleAux false cs

/-- Python's `str.title()` on a string (see `pyTitleAux`). -/
def pyTitle (s : String) : String :=
  ⟨pyTitleAux false s.data⟩

/-- `classify_type` from src/data_collector.py lines 73-82: precedence on the
`amenity` tag (hospital, clinic, doctors), then the truthy (nonempty)
`healthcare` tag title-cased, else Other. -/
def classify_type (row : OsmRow) : String :=
  if row.amenity = "hospital" then "Hospital"
  else if row.amenity = "clinic" then "Clinic"
  else if row.amenity = "doctors" then "Doctor"
  else if row.healthcare ≠ "" then pyTitle row.healthcare
  else "Other"

/-- Whether `needle` occurs as a contiguous run inside `hay`
(Python's `needle in hay` on strings), on character lists. -/
def containsSub (needle : List Char) : List Char → Bool
  | [] => decide (needle = [])
  | c :: t => needle.isPrefixOf (c :: t) || containsSub needle t

/-- Python's substring test `needle in hay` on strings. -/
def strContains (hay needle : String) : Bool :=
  containsSub needle.data hay.data

/-- One operator record as assembled by `fetch_healthcare_from_osm`; both
fields default to the empty string. -/
structure OpRow where
  operator : String
  operator_type : String
deriving DecidableEq

/-- Public-sector keywords of `classify_operator`
(src/data_collector.py line 89). -/
def publicKeywords : List String :=
  ["devlet", "public", "sağlık bakanlığı", "government"]

/-- Private-sector keywords of `classify_operator` (line 91). -/
def privateKeywords : List String :=
  ["özel", "private"]

/-- University keywords of `classify_operator` (line 93). -/
def universityKeywords : List String :=
  ["üniversite", "university"]

/-- Lowercasing of a string, character by character (`Char.toLower` lowercases
ASCII letters; Python's `str.lower()` additionally lowercases non-ASCII
uppercase letters, a difference the claims do not depend on). -/
def lowerStr (s : String) : String :=
  ⟨s.data.map Char.toLower⟩

/-- The lowercased concatenation `(row["operator"] + " " + row["operator_type"]).lower()`
(src/data_collector.py line 88). -/
def opText (row : OpRow) : String :=
  lowerStr (row.operator ++ " " ++ row.operator_type)

/-- `classify_operator` from src/data_collector.py lines 87-95: keyword
membership tested in the fixed order Public, Private, University; the first
matching branch wins, no match yields Unknown. -/
def classify_operator (row : OpRow) : String :=
  if publicKeywords.any (fun k => strContains (opText row) k) then "Public"
  else if privateKeywords.any (fun k => strContains (opText row) k) then "Private"
  else if universityKeywords.any (fun k => strContains (opText row) k) then "University"
  else "Unknown"

/-! ### Geodata frames -/

/-- One facility row of a facilities GeoDataFrame: the columns used by
src/find_nearest.py (`name`, `type`) and the point geometry. -/
structure FacRow where
  name : String
  ftype : String
  geom : PtQ
deriving DecidableEq

/-- A facilities GeoDataFrame: a CRS tag and its rows. -/
structure FacFrame where
  crs : CRS
  rows : List FacRow
deriving DecidableEq

/-- A points GeoDataFrame as consumed by `nearest_facility_analysis`: each row
is the non-geometry columns (an arbitrary payload `α`, e.g. a district record)
paired with the point geometry. -/
structure PFrame (α : Type) where
  crs : CRS
  rows : List (α × PtQ)
deriving DecidableEq

/-! ### src/find_nearest.py -/

/-- One output row of `find_nearest`: the selected columns
`['name', 'type', 'distance']`. -/
structure NearRow where
  name : String
  ftype : String
  distance : Measure
deriving DecidableEq

/-- Stable insertion into a list sorted by ascending distance: a row is placed
after every earlier row whose distance is less than or equal, matching
`nsmallest`'s keep-first tie behaviour. -/
def insertByDist (x : NearRow) : List NearRow → List NearRow
  | [] => [x]
  | y :: ys =>
    if x.distance.value2 < y.distance.value2 then x :: y :: ys
    else y :: insertByDist x ys

/-- Stable sort of rows by ascending distance (the order produced by
`gdf.nsmallest(k, 'distance')` before truncation). -/
def sortByDist : List NearRow → List NearRow
  | [] => []
  | x :: xs => insertByDist x (sortByDist xs)

/-- `find_nearest` from src/find_nearest.py lines 8-25: a distance column is
computed by `gdf.geometry.distance(point)` directly in the frame's own
coordinate system — no `to_crs` occurs — so the distance carries the native
unit of the frame's CRS; then the k rows of smallest distance are returned. -/
def find_nearest (location : PtQ) (gdf : FacFrame) (k : ℕ) : List NearRow :=
  let withDist := gdf.rows.map
    (fun r => NearRow.mk r.name r.ftype ⟨dist2 r.geom location, gdf.crs.units⟩)
  (sortByDist withDist).take k

/-! ### src/spatial_analysis.py : nearest_facility_analysis -/

/-- `nearest_facility_analysis` from src/spatial_analysis.py lines 49-86.
Both frames are reprojected to EPSG:32635 (`to_crs`, modelled by the point map
`proj`); the facilities are fused by `unary_union` (for point data, the set of
projected points); for an empty facility set that union is empty and
`shapely.ops.nearest_points` raises, modelled by `none`.  Otherwise, for each
projected point the squared distance to the nearest facility is taken, scaled
from m² to km² (`distance_m / 1000` on magnitudes), and the new column is
attached positionally to a copy of the original (unprojected) frame. -/
def nearest_facility_analysis {α : Type} (proj : PtQ → PtQ) (points : PFrame α)
    (facilities : FacFrame) : Option (List (α × PtQ × Measure)) :=
  let points_proj := points.rows.map (fun r => (r.1, proj r.2))
  let facs_proj := facilities.rows.map (fun f => proj f.geom)
  match facs_proj with
  | [] => none
  | g :: gs =>
    let results := points_proj.map (fun r =>
      let d2m := gs.foldl (fun acc q => min acc (dist2 r.2 q)) (dist2 r.2 g)
      (r.2, d2m, d2m / 1000000))
    some ((points.rows.zip results).map
      (fun pr => (pr.1.1, pr.1.2, (⟨pr.2.2.2, LUnit.kilometers⟩ : Measure))))

/-! ### Floating-point special values

pandas/numpy float division by zero does not raise: `0/0` is NaN (with a
runtime warning) and `x/0` is `±inf`; NaN propagates through every arithmetic
operation.  `Flt` models exactly the float values reachable in the scoring
arithmetic (rationals, NaN and the two infinities; signed zero is not
distinguished). -/

/-- A pandas float value: NaN, +inf, -inf, or a (rational) number. -/
inductive Flt where
  | nan : Flt
  | pinf : Flt
  | ninf : Flt
  | val : ℚ → Flt
deriving DecidableEq

/-- IEEE addition on `Flt`. -/
def Flt.add : Flt → Flt → Flt
  | Flt.nan, _ => Flt.nan
  | _, Flt.nan => Flt.nan
  | Flt.pinf, Flt.ninf => Flt.nan
  | Flt.ninf, Flt.pinf => Flt.nan
  | Flt.pinf, _ => Flt.pinf
  | _, Flt.pinf => Flt.pinf
  | Flt.ninf, _ => Flt.ninf
  | _, Flt.ninf => Flt.ninf
  | Flt.val a, Flt.val b => Flt.val (a + b)

/-- IEEE negation on `Flt`. -/
def Flt.neg : Flt → Flt
  | Flt.nan => Flt.nan
  | Flt.pinf => Flt.ninf
  | Flt.ninf => Flt.pinf
  | Flt.val a => Flt.val (-a)

/-- IEEE subtraction on `Flt`. -/
def Flt.sub (a b : Flt) : Flt :=
  a.add b.neg

/-- IEEE multiplication on `Flt`. -/
def Flt.mul : Flt → Flt → Flt
  | Flt.nan, _ => Flt.nan
  | _, Flt.nan => Flt.nan
  | Flt.pinf, Flt.pinf => Flt.pinf
  | Flt.pinf, Flt.ninf => Flt.ninf
  | Flt.ninf, Flt.pinf => Flt.ninf
  | Flt.ninf, Flt.ninf => Flt.pinf
  | Flt.pinf, Flt.val b => if b = 0 then Flt.nan else if 0 < b then Flt.pinf else Flt.ninf
  | Flt.val a, Flt.pinf => if a = 0 then Flt.nan else if 0 < a then Flt.pinf else Flt.ninf
  | Flt.ninf, Flt.val b => if b = 0 then Flt.nan else if 0 < b then Flt.ninf else Flt.pinf
  | Flt.val a, Flt.ninf => if a = 0 then Flt.nan else if 0 < a then Flt.ninf else Flt.pinf
  | Flt.val a, Flt.val b => Flt.val (a * b)

/-- IEEE division on `Flt` (signed zero not distinguished): in particular
`0/0` is NaN and `x/0` is `±inf` for `x ≠ 0`, which is what numpy produces
instead of raising. -/
def Flt.div : Flt → Flt → Flt
  | Flt.nan, _ => Flt.nan
  | _, Flt.nan => Flt.nan
  | Flt.pinf, Flt.pinf => Flt.nan
  | Flt.pinf, Flt.ninf => Flt.nan
  | Flt.ninf, Flt.pinf => Flt.nan
  | Flt.ninf, Flt.ninf => Flt.nan
  | Flt.pinf, Flt.val b => if 0 ≤ b then Flt.pinf else Flt.ninf
  | Flt.ninf, Flt.val b => if 0 ≤ b then Flt.ninf else Flt.pinf
  | Flt.val _, Flt.pinf => Flt.val 0
  | Flt.val _, Flt.ninf => Flt.val 0
  | Flt.val a, Flt.val b =>
    if b = 0 then (if a = 0 then Flt.nan else if 0 < a then Flt.pinf else Flt.ninf)
    else Flt.val (a / b)

/-! ### src/spatial_analysis.py : accessibility scorer (lines 126-132) -/

/-- pandas `Series.max()` on an integer column (well-defined for the nonempty
frames every claim is about; pandas yields NaN on an empty series, a case no
claim reaches). -/
def seriesMaxN : List ℕ → ℕ
  | [] => 0
  | x :: xs => xs.foldl max x

/-- pandas `Series.max()` on a rational-valued column (see `seriesMaxN`). -/
def seriesMaxQ : List ℚ → ℚ
  | [] => 0
  | x :: xs => xs.foldl max x

/-- Line 130: `districts["count_score"] = (districts["facility_count"] / max_count) * 50`,
an unguarded float division against the column maximum. -/
def count_scores (counts : List ℕ) : List Flt :=
  let m := seriesMaxN counts
  counts.map (fun (c : ℕ) => ((Flt.val (c : ℚ)).div (Flt.val (m : ℚ))).mul (Flt.val 50))

/-- Line 131: `districts["distance_score"] = (1 - districts["nearest_hospital_km"] / max_dist) * 50`,
an unguarded float division against the column maximum. -/
def distance_scores (dists : List ℚ) : List Flt :=
  let m := seriesMaxQ dists
  dists.map (fun d => ((Flt.val 1).sub ((Flt.val d).div (Flt.val m))).mul (Flt.val 50))

/-- Line 132: `districts["accessibility_score"] = districts["count_score"] + districts["distance_score"]`.
No clamping is applied. -/
def accessibility_scores (counts : List ℕ) (dists : List ℚ) : List Flt :=
  List.zipWith Flt.add (count_scores counts) (distance_scores dists)

/-- The scoring formula stated by the specification (§4.5):
`countScore + distanceScore` with both normalizations written out. -/
def spec_score_formula (c maxc d maxd : ℚ) : ℚ :=
  c / maxc * 50 + (1 - d / maxd) * 50

/-- Clamping to the interval [0, 100], as the specification's wording
demands of the accessibility score. -/
def clamp0100 (q : ℚ) : ℚ :=
  max 0 (min 100 q)

/-! ### src/spatial_analysis.py : spatial join and full pipeline -/

/-- One row of a districts GeoDataFrame: its non-geometry columns as a
(name, value) association list, and its polygon. -/
structure DRow where
  attrs : List (String × String)
  poly : Rect
deriving DecidableEq

/-- A districts GeoDataFrame: the schema (column names, in order) and rows. -/
structure DFrame where
  cols : List String
  rows : List DRow
deriving DecidableEq

/-- Value of column `c` in a district row (rows carry a value for each schema
column; a missing key reads as the empty string). -/
def lookupAttr (r : DRow) (c : String) : String :=
  ((r.attrs.find? (fun p => p.1 == c)).map Prod.snd).getD ("")

/-- The candidate district-name columns probed in order by
src/spatial_analysis.py line 104. -/
def candidate_cols : List String :=
  ["name", "district_name", "ilce", "NAME", "ilce_adi"]

/-- Lines 103-107: the first candidate column present in the schema,
`none` when no candidate matches. -/
def district_col (cols : List String) : Option String :=
  candidate_cols.find? (fun c => cols.contains c)

/-- Lines 109-111: when no candidate column is found the code prints
"Warning: Could not identify district name column" and falls back to
`districts.columns[0]`; it does not raise. -/
def district_col_used (cols : List String) : String :=
  match district_col cols with
  | some c => c
  | none => cols.headD ("")

/-- Whether the fallback warning of lines 109-111 is printed. -/
def district_col_warned (cols : List String) : Bool :=
  (district_col cols).isNone

/-- Lines 100-118: `sjoin(facilities, districts, how="left", predicate="within")`
followed by `groupby(name).size()` and a merge back onto the districts by name
with `fillna(0)`.  The group size for name `n` is the number of
(facility, district) pairs whose facility lies within the district polygon and
whose district carries name `n`; facilities within no district appear in the
left join with a null name and are dropped by the groupby.  The `within` test
runs on projected geometries in the code; reprojection preserves interior
membership, so it is performed here on source coordinates. -/
def sjoin_count (facilities : FacFrame) (districts : List DRow) (col : String)
    (n : String) : ℕ :=
  (districts.filter (fun d => lookupAttr d col == n)).foldl
    (fun acc d => acc + facilities.rows.countP (fun f => withinRect f.geom d.poly)) 0

/-- Number of facilities lying within no district polygon.  The specification
calls these "unassigned"; the code forms these rows in its left join (with a
null district name) but computes no count for them, so this definition follows
the specification's wording. -/
def unassigned_count (facilities : FacFrame) (districts : List DRow) : ℕ :=
  facilities.rows.countP (fun f => districts.all (fun d => !withinRect f.geom d.poly))

/-- Attribute columns of the embedded facilities frame, by their Python
names: `name` and `type` (the `FacRow.ftype` field; `type` is kept out of the
Lean field name only).  geopandas `sjoin` appends its `_left`/`_right`
suffixes only to columns that occur in both frames, so this list decides
which district columns appear suffixed in the joined frame. -/
def fac_frame_cols : List String :=
  ["name", "type"]

/-- One row of the frame returned by `calculate_accessibility_score`. -/
structure ScoredRow where
  dname : String
  facility_count : ℕ
  nearest_hospital_km2 : ℚ
  count_score : Flt
  distance_score : Flt
  accessibility_score : Flt
deriving DecidableEq

/-- The stages of `calculate_accessibility_score` after the groupby key is
found (src/spatial_analysis.py lines 113-134): count facilities per district
through the spatial join, compute each district centroid's distance to the
nearest facility via `nearest_facility_analysis` (whose failure on an empty
facility set propagates), and attach the three score columns of lines
126-132. -/
def calculate_scored_rows (proj : PtQ → PtQ) (districts : DFrame)
    (facilities : FacFrame) (col : String) : Option (List ScoredRow) :=
  let counts := districts.rows.map
    (fun r => sjoin_count facilities districts.rows col (lookupAttr r col))
  let centroidFrame : PFrame DRow :=
    ⟨CRS.epsg4326, districts.rows.map (fun r => (r, r.poly.centroid))⟩
  match nearest_facility_analysis proj centroidFrame facilities with
  | none => none
  | some nfaOut =>
    let dists := nfaOut.map (fun t => t.2.2.value2)
    let cs := count_scores counts
    let ds := distance_scores dists
    let total := accessibility_scores counts dists
    some ((districts.rows.zip (counts.zip (dists.zip (cs.zip (ds.zip total))))).map
      (fun t => ScoredRow.mk (lookupAttr t.1 col) t.2.1 t.2.2.1 t.2.2.2.1
        t.2.2.2.2.1 t.2.2.2.2.2))

/-- `calculate_accessibility_score` from src/spatial_analysis.py lines 89-134:
resolve the district-name column (with the silent fallback of lines 109-111),
then run the join, distance and scoring stages (`calculate_scored_rows`).
Lines 113 and 117 access the joined column `f"{district_col}_right"`:
`sjoin` appends its suffixes only to columns occurring in both frames, so
that key exists exactly when the district column is also a facilities column
(`fac_frame_cols`); otherwise the `groupby` of line 113 raises a `KeyError`
that aborts the run, modelled by `none`. -/
def calculate_accessibility_score (proj : PtQ → PtQ) (districts : DFrame)
    (facilities : FacFrame) : Option (List ScoredRow) :=
  let col := district_col_used districts.cols
  if fac_frame_cols.contains col then
    calculate_scored_rows proj districts facilities col
  else none

/-! ### Helper lemmas -/

/-- Every member of `a :: l` is bounded by the running `max` fold. -/
theorem le_foldl_max {α : Type} [LinearOrder α] (l : List α) :
    ∀ a x : α, x ∈ a :: l → x ≤ l.foldl max a := by
  induction l with
  | nil => intro a x hx; simp at hx; simp [hx]
  | cons b t ih =>
    intro a x hx
    simp only [List.mem_cons] at hx
    simp only [List.foldl_cons]
    rcases hx with h | h | h
    · subst h
      exact le_trans (le_max_left x b)
        (ih (max x b) (max x b) (List.mem_cons_self _ _))
    · subst h
      exact le_trans (le_max_right a x)
        (ih (max a x) (max a x) (List.mem_cons_self _ _))
    · exact ih (max a b) x (List.mem_cons_of_mem _ h)

/-- The running `min` fold lands on one of the candidates. -/
theorem foldl_min_mem {α : Type} [LinearOrder α] (l : List α) :
    ∀ a : α, l.foldl min a ∈ a :: l := by
  induction l with
  | nil => intro a; simp
  | cons b t ih =>
    intro a
    simp only [List.foldl_cons]
    rcases List.mem_cons.mp (ih (min a b)) with h1 | h1
    · rcases min_cases a b with ⟨he, _⟩ | ⟨he, _⟩
      · exact List.mem_cons.mpr (Or.inl (h1.trans he))
      · exact List.mem_cons.mpr (Or.inr (List.mem_cons.mpr (Or.inl (h1.trans he))))
    · exact List.mem_cons.mpr (Or.inr (List.mem_cons.mpr (Or.inr h1)))

/-- The running `min` fold is a lower bound for all candidates. -/
theorem foldl_min_le {α : Type} [LinearOrder α] (l : List α) :
    ∀ a x : α, x ∈ a :: l → l.foldl min a ≤ x := by
  induction l with
  | nil => intro a x hx; simp at hx; simp [hx]
  | cons b t ih =>
    intro a x hx
    simp only [List.mem_cons] at hx
    simp only [List.foldl_cons]
    rcases hx with h | h | h
    · subst h
      exact le_trans (ih (min x b) (min x b) (List.mem_cons_self _ _)) (min_le_left x b)
    · subst h
      exact le_trans (ih (min a x) (min a x) (List.mem_cons_self _ _)) (min_le_right a x)
    · exact ih (min a b) x (List.mem_cons_of_mem _ h)

/-- Folding `min` of images equals folding `min` over the mapped list. -/
theorem foldl_min_map {α β : Type} [LinearOrder β] (f : α → β) (l : List α) (a : β) :
    l.foldl (fun acc q => min acc (f q)) a = (l.map f).foldl min a := by
  induction l generalizing a with
  | nil => rfl
  | cons b t ih => simp only [List.foldl_cons, List.map_cons]; exact ih (min a (f b))

/-- A mapped indicator sums to the Boolean count. -/
theorem sum_map_ite_eq_countP {α : Type} (p : α → Bool) (l : List α) :
    (l.map (fun r => if p r then 1 else 0)).sum = l.countP p := by
  induction l with
  | nil => simp
  | cons b t ih =>
    by_cases hb : p b
    · simp [List.countP_cons, hb, ih, Nat.add_comm]
    · simp [List.countP_cons, hb, ih]

/-- In a list of rows whose `col` values are pairwise distinct, filtering on
the `col` value of a member recovers exactly that member. -/
theorem filter_attr_eq_single (l : List DRow) (col : String) (r : DRow)
    (hnd : (l.map (fun d => lookupAttr d col)).Nodup) (hr : r ∈ l) :
    l.filter (fun d => lookupAttr d col == lookupAttr r col) = [r] := by
  induction l with
  | nil => cases hr
  | cons b t ih =>
    simp only [List.map_cons, List.nodup_cons, List.mem_map] at hnd
    rcases List.mem_cons.mp hr with h | h
    · subst h
      have ht : t.filter (fun d => lookupAttr d col == lookupAttr r col) = [] := by
        rw [List.filter_eq_nil_iff]
        intro d hd
        simp only [beq_iff_eq]
        intro hEq
        exact hnd.1 ⟨d, hd, hEq⟩
      simp [List.filter_cons, ht]
    · have hne : ¬(lookupAttr b col == lookupAttr r col) = true := by
        simp only [beq_iff_eq]
        intro hEq
        exact hnd.1 ⟨r, h, hEq.symm⟩
      simp only [List.filter_cons, hne, if_neg]
      simp only [Bool.false_eq_true, if_false]
      exact ih hnd.2 h

/-- Every member of a column is bounded by the pandas column maximum. -/
theorem mem_le_seriesMaxN (l : List ℕ) : ∀ x ∈ l, x ≤ seriesMaxN l := by
  cases l with
  | nil => simp
  | cons a t => exact fun x hx => le_foldl_max t a x hx

/-- Every member of a column is bounded by the pandas column maximum. -/
theorem mem_le_seriesMaxQ (l : List ℚ) : ∀ x ∈ l, x ≤ seriesMaxQ l := by
  cases l with
  | nil => simp
  | cons a t => exact fun x hx => le_foldl_max t a x hx

/-- Float division of finite values by a nonzero finite value is exact. -/
theorem Flt.div_val_of_ne (a b : ℚ) (hb : b ≠ 0) :
    (Flt.val a).div (Flt.val b) = Flt.val (a / b) := by
  simp [Flt.div, hb]

/-- Float multiplication of finite values is exact. -/
theorem Flt.mul_val (a b : ℚ) : (Flt.val a).mul (Flt.val b) = Flt.val (a * b) := rfl

/-- Float subtraction of finite values is exact. -/
theorem Flt.sub_val (a b : ℚ) : (Flt.val a).sub (Flt.val b) = Flt.val (a - b) := by
  simp [Flt.sub, Flt.add, Flt.neg, sub_eq_add_neg]

/-- Float addition of finite values is exact. -/
theorem Flt.add_val (a b : ℚ) : (Flt.val a).add (Flt.val b) = Flt.val (a + b) := rfl

/-! ### Claim theorems -/

/-- C5: `classify_type` is total with the exact precedence hospital, clinic,
doctors on the `amenity` tag before the title-cased `healthcare` fallback and
the `Other` default: every record yields exactly one of Hospital, Clinic,
Doctor, the title-cased healthcare value, or Other, and a record tagged
`amenity=hospital` classifies as Hospital regardless of its healthcare tag. -/
theorem classify_type_total_precedence (row : OsmRow) :
    (classify_type row = "Hospital" ∨ classify_type row = "Clinic" ∨
      classify_type row = "Doctor" ∨
      (row.healthcare ≠ "" ∧ classify_type row = pyTitle row.healthcare) ∨
      classify_type row = "Other") ∧
    (row.amenity = "hospital" → classify_type row = "Hospital") := by
  constructor
  · unfold classify_type
    split_ifs with h1 h2 h3 h4
    · exact Or.inl rfl
    · exact Or.inr (Or.inl rfl)
    · exact Or.inr (Or.inr (Or.inl rfl))
    · exact Or.inr (Or.inr (Or.inr (Or.inl ⟨h4, rfl⟩)))
    · exact Or.inr (Or.inr (Or.inr (Or.inr rfl)))
  · intro h
    unfold classify_type
    simp [h]

/-- Witness for C5: a record tagged both `amenity=hospital` and
`healthcare=dentist` classifies as Hospital, and lies in the stated range. -/
theorem classify_type_total_precedence_witness :
    (classify_type ⟨"hospital", "dentist"⟩ = "Hospital" ∨
      classify_type ⟨"hospital", "dentist"⟩ = "Clinic" ∨
      classify_type ⟨"hospital", "dentist"⟩ = "Doctor" ∨
      ((OsmRow.mk "hospital" "dentist").healthcare ≠ "" ∧
        classify_type ⟨"hospital", "dentist"⟩ =
          pyTitle (OsmRow.mk "hospital" "dentist").healthcare) ∨
      classify_type ⟨"hospital", "dentist"⟩ = "Other") ∧
    classify_type ⟨"hospital", "dentist"⟩ = "Hospital" := by
  have h := classify_type_total_precedence ⟨"hospital", "dentist"⟩
  exact ⟨h.1, h.2 rfl⟩

/-- C6: `classify_operator` lowercases the concatenated operator fields and
tests keyword membership in the fixed order Public, Private, University with
Unknown as default: every input yields exactly one of these four sectors, and
an input matching both a public-sector keyword and a university keyword
classifies as Public. -/
theorem classify_operator_total_precedence (row : OpRow) :
    (classify_operator row = "Public" ∨ classify_operator row = "Private" ∨
      classify_operator row = "University" ∨ classify_operator row = "Unknown") ∧
    (publicKeywords.any (fun k => strContains (opText row) k) = true →
      universityKeywords.any (fun k => strContains (opText row) k) = true →
      classify_operator row = "Public") := by
  constructor
  · unfold classify_operator
    split_ifs
    · exact Or.inl rfl
    · exact Or.inr (Or.inl rfl)
    · exact Or.inr (Or.inr (Or.inl rfl))
    · exact Or.inr (Or.inr (Or.inr rfl))
  · intro hpub _
    unfold classify_operator
    simp [hpub]

/-- Witness for C6: the operator text "Public University Hospital" contains
both a public keyword and a university keyword and classifies as Public. -/
theorem classify_operator_total_precedence_witness :
    (classify_operator ⟨"Public University Hospital", ""⟩ = "Public" ∨
      classify_operator ⟨"Public University Hospital", ""⟩ = "Private" ∨
      classify_operator ⟨"Public University Hospital", ""⟩ = "University" ∨
      classify_operator ⟨"Public University Hospital", ""⟩ = "Unknown") ∧
    classify_operator ⟨"Public University Hospital", ""⟩ = "Public" := by
  have h := classify_operator_total_precedence ⟨"Public University Hospital", ""⟩
  exact ⟨h.1, h.2 (by decide) (by decide)⟩

/-- C3: `nearest_facility_analysis` on an empty facility set fails (the empty
`unary_union` makes `nearest_points` raise, modelled by `none`) for every
projection, CRS and points frame; no distance value is produced. -/
theorem nearest_empty_facilities_fails {α : Type} (proj : PtQ → PtQ)
    (points : PFrame α) (c : CRS) :
    nearest_facility_analysis proj points ⟨c, []⟩ = none := rfl

/-- C4 counterexample: with all facility counts zero the column maximum is 0
and every `count_score` is NaN (the unguarded `0/0`), not the claimed explicit
floor 0; with all nearest-distances zero every `distance_score` is NaN, not
the claimed 50. -/
theorem degenerate_scores_counterexample :
    count_scores [0, 0] = [Flt.nan, Flt.nan] ∧
    distance_scores [0] = [Flt.nan] ∧
    Flt.nan ≠ Flt.val 0 ∧ Flt.nan ≠ Flt.val 50 := by
  refine ⟨by decide, by decide, by decide, by decide⟩

/-- C4 amended: the degenerate cases reach the unguarded divisions of lines
130-131: when the maximum facility count is 0 every district's `count_score`
is NaN (float `0/0`), and when the maximum nearest-distance is 0 (distances
being nonnegative) every district's `distance_score` is NaN; no explicit
normalization floor exists in the code. -/
theorem degenerate_scores_nan (counts : List ℕ) (dists : List ℚ) :
    (seriesMaxN counts = 0 → ∀ x ∈ count_scores counts, x = Flt.nan) ∧
    (seriesMaxQ dists = 0 → (∀ d ∈ dists, 0 ≤ d) →
      ∀ x ∈ distance_scores dists, x = Flt.nan) := by
  constructor
  · intro hmax x hx
    unfold count_scores at hx
    simp only [List.mem_map] at hx
    obtain ⟨c, hc, hcx⟩ := hx
    have hc0 : c = 0 := by
      have := mem_le_seriesMaxN counts c hc
      omega
    rw [← hcx, hc0, hmax]
    simp [Flt.div, Flt.mul]
  · intro hmax hnn x hx
    unfold distance_scores at hx
    simp only [List.mem_map] at hx
    obtain ⟨d, hd, hdx⟩ := hx
    have hd0 : d = 0 := by
      have h1 := mem_le_seriesMaxQ dists d hd
      have h2 := hnn d hd
      rw [hmax] at h1
      exact le_antisymm h1 h2
    rw [← hdx, hd0, hmax]
    simp [Flt.div, Flt.sub, Flt.add, Flt.neg, Flt.mul]

/-- Witness for C4 amended: with the single-district columns `[0]` and `[0]`
both degenerate hypotheses hold and both scores are NaN. -/
theorem degenerate_scores_nan_witness :
    (∀ x ∈ count_scores [0], x = Flt.nan) ∧
    (∀ x ∈ distance_scores [0], x = Flt.nan) :=
  ⟨(degenerate_scores_nan [0] [0]).1 rfl,
    (degenerate_scores_nan [0] [0]).2 rfl (by norm_num)⟩

/-- C1: given positive column maxima (and nonnegative distances, which the
pipeline guarantees), every district's `accessibility_score` is the finite
float value of the specification formula
`(count / maxCount) * 50 + (1 - dist / maxDist) * 50`, that value lies in
[0, 100], and it therefore equals its own clamp to [0, 100]. -/
theorem scorer_matches_spec_formula (counts : List ℕ) (dists : List ℚ)
    (hc : 0 < seriesMaxN counts) (hd : 0 < seriesMaxQ dists)
    (hnn : ∀ d ∈ dists, 0 ≤ d)
    (i : ℕ) (hi1 : i < counts.length) (hi2 : i < dists.length) :
    0 ≤ spec_score_formula (counts[i] : ℚ) (seriesMaxN counts : ℚ)
        dists[i] (seriesMaxQ dists) ∧
    spec_score_formula (counts[i] : ℚ) (seriesMaxN counts : ℚ)
        dists[i] (seriesMaxQ dists) ≤ 100 ∧
    (accessibility_scores counts dists)[i]? =
      some (Flt.val (clamp0100 (spec_score_formula (counts[i] : ℚ)
        (seriesMaxN counts : ℚ) dists[i] (seriesMaxQ dists)))) := by
  have hmcQ : (0 : ℚ) < (seriesMaxN counts : ℚ) := by exact_mod_cast hc
  have hcm : (counts[i] : ℚ) ≤ (seriesMaxN counts : ℚ) := by
    exact_mod_cast mem_le_seriesMaxN counts counts[i] (List.getElem_mem hi1)
  have hdm : dists[i] ≤ seriesMaxQ dists :=
    mem_le_seriesMaxQ dists dists[i] (List.getElem_mem hi2)
  have hdnn : 0 ≤ dists[i] := hnn dists[i] (List.getElem_mem hi2)
  have hr1a : 0 ≤ (counts[i] : ℚ) / (seriesMaxN counts : ℚ) :=
    div_nonneg (Nat.cast_nonneg _) hmcQ.le
  have hr1b : (counts[i] : ℚ) / (seriesMaxN counts : ℚ) ≤ 1 :=
    (div_le_one hmcQ).mpr hcm
  have hr2a : 0 ≤ dists[i] / seriesMaxQ dists := div_nonneg hdnn hd.le
  have hr2b : dists[i] / seriesMaxQ dists ≤ 1 := (div_le_one hd).mpr hdm
  have hlow : 0 ≤ spec_score_formula (counts[i] : ℚ) (seriesMaxN counts : ℚ)
      dists[i] (seriesMaxQ dists) := by
    unfold spec_score_formula
    nlinarith
  have hhigh : spec_score_formula (counts[i] : ℚ) (seriesMaxN counts : ℚ)
      dists[i] (seriesMaxQ dists) ≤ 100 := by
    unfold spec_score_formula
    nlinarith
  refine ⟨hlow, hhigh, ?_⟩
  have hclamp : clamp0100 (spec_score_formula (counts[i] : ℚ) (seriesMaxN counts : ℚ)
      dists[i] (seriesMaxQ dists)) = spec_score_formula (counts[i] : ℚ)
      (seriesMaxN counts : ℚ) dists[i] (seriesMaxQ dists) := by
    unfold clamp0100
    rw [min_eq_right hhigh, max_eq_right hlow]
  rw [hclamp]
  have hcs : (count_scores counts)[i]? =
      some (Flt.val ((counts[i] : ℚ) / (seriesMaxN counts : ℚ) * 50)) := by
    unfold count_scores
    rw [List.getElem?_map, List.getElem?_eq_getElem hi1, Option.map_some',
      Flt.div_val_of_ne _ _ (ne_of_gt hmcQ), Flt.mul_val]
  have hds : (distance_scores dists)[i]? =
      some (Flt.val ((1 - dists[i] / seriesMaxQ dists) * 50)) := by
    unfold distance_scores
    rw [List.getElem?_map, List.getElem?_eq_getElem hi2, Option.map_some',
      Flt.div_val_of_ne _ _ (ne_of_gt hd), Flt.sub_val, Flt.mul_val]
  unfold accessibility_scores
  rw [List.getElem?_zipWith, hcs, hds]
  simp only [Flt.add_val]
  rfl

/-- Witness for C1: columns `[1, 2]` and `[1, 1]` at district index 0. -/
theorem scorer_matches_spec_formula_witness :
    0 ≤ spec_score_formula ((([1, 2] : List ℕ)[0] : ℚ)) ((seriesMaxN [1, 2] : ℚ))
        (([1, 1] : List ℚ)[0]) (seriesMaxQ [1, 1]) ∧
    spec_score_formula ((([1, 2] : List ℕ)[0] : ℚ)) ((seriesMaxN [1, 2] : ℚ))
        (([1, 1] : List ℚ)[0]) (seriesMaxQ [1, 1]) ≤ 100 ∧
    (accessibility_scores [1, 2] [1, 1])[0]? =
      some (Flt.val (clamp0100 (spec_score_formula ((([1, 2] : List ℕ)[0] : ℚ))
        ((seriesMaxN [1, 2] : ℚ)) (([1, 1] : List ℚ)[0]) (seriesMaxQ [1, 1])))) :=
  scorer_matches_spec_formula [1, 2] [1, 1] (by decide)
    (by norm_num [seriesMaxQ]) (by norm_num) 0 (by norm_num) (by norm_num)

/-- C7 counterexample: a facility point lying exactly on the boundary shared
by two adjacent district polygons satisfies the sjoin `within` predicate for
neither polygon, so it is assigned to zero districts, not exactly one. -/
theorem boundary_point_unassigned_example :
    withinRect ⟨2, 1⟩ ⟨0, 0, 2, 2⟩ = false ∧
    withinRect ⟨2, 1⟩ ⟨2, 0, 4, 2⟩ = false ∧
    ([⟨[("name", "A")], ⟨0, 0, 2, 2⟩⟩, ⟨[("name", "B")], ⟨2, 0, 4, 2⟩⟩] : List DRow).countP
      (fun d => withinRect ⟨2, 1⟩ d.poly) = 0 ∧
    ¬ ([⟨[("name", "A")], ⟨0, 0, 2, 2⟩⟩, ⟨[("name", "B")], ⟨2, 0, 4, 2⟩⟩] : List DRow).countP
      (fun d => withinRect ⟨2, 1⟩ d.poly) = 1 := by
  refine ⟨by decide, by decide, by decide, by decide⟩

/-- C7 amended: a facility point lying exactly on the boundary shared by two
adjacent district polygons matches the `within` predicate of neither district:
it is assigned to no district and is counted as unassigned. -/
theorem boundary_point_within_neither (r1 r2 : Rect) (p : PtQ)
    (a1 a2 : List (String × String)) (nm ty : String)
    (hshared : r1.xmax = r2.xmin) (hp : p.x = r1.xmax) :
    withinRect p r1 = false ∧ withinRect p r2 = false ∧
    ([⟨a1, r1⟩, ⟨a2, r2⟩] : List DRow).countP (fun d => withinRect p d.poly) = 0 ∧
    unassigned_count ⟨CRS.epsg4326, [⟨nm, ty, p⟩]⟩ [⟨a1, r1⟩, ⟨a2, r2⟩] = 1 := by
  have h1 : withinRect p r1 = false := by
    unfold withinRect
    rw [hp]
    simp
  have h2 : withinRect p r2 = false := by
    unfold withinRect
    rw [hp, hshared]
    simp
  refine ⟨h1, h2, ?_, ?_⟩
  · rw [List.countP_eq_zero]
    intro d hd
    rcases List.mem_cons.mp hd with h | h
    · subst h; simp [h1]
    · simp only [List.mem_singleton] at h; subst h; simp [h2]
  · unfold unassigned_count
    simp [h1, h2]

/-- Witness for C7 amended: point (1, 0) on the shared edge x = 1 of the
adjacent rectangles [0,1]×[0,1] and [1,2]×[0,1]. -/
theorem boundary_point_within_neither_witness :
    withinRect ⟨1, 0⟩ ⟨0, 0, 1, 1⟩ = false ∧
    withinRect ⟨1, 0⟩ ⟨1, 0, 2, 1⟩ = false ∧
    ([⟨[("name", "L")], ⟨0, 0, 1, 1⟩⟩, ⟨[("name", "R")], ⟨1, 0, 2, 1⟩⟩] : List DRow).countP
      (fun d => withinRect ⟨1, 0⟩ d.poly) = 0 ∧
    unassigned_count ⟨CRS.epsg4326, [⟨"F", "h", ⟨1, 0⟩⟩]⟩
      [⟨[("name", "L")], ⟨0, 0, 1, 1⟩⟩, ⟨[("name", "R")], ⟨1, 0, 2, 1⟩⟩] = 1 :=
  boundary_point_within_neither ⟨0, 0, 1, 1⟩ ⟨1, 0, 2, 1⟩ ⟨1, 0⟩
    [("name", "L")] [("name", "R")] "F" "h" rfl rfl

/-- C8 counterexample: on a districts frame whose schema contains no
recognizable district-name column (`district_col` finds no candidate) but
whose first column `type` also occurs in the facilities frame, the analysis
neither raises an `AmbiguousColumnMapping` error nor stops: the suffixed
groupby key exists, the join and scoring stages run, and a scored frame is
returned. -/
theorem ambiguous_column_proceeds_example :
    district_col ["type"] = none ∧
    fac_frame_cols.contains ("type") = true ∧
    (calculate_accessibility_score id
      ⟨["type"], [⟨[("type", "Merkez")], ⟨0, 0, 2, 2⟩⟩]⟩
      ⟨CRS.epsg4326, [⟨"H", "hospital", ⟨1, 1⟩⟩]⟩).isSome = true := by
  refine ⟨by decide, by decide, by decide⟩

/-- C8 amended: when the district name column cannot be determined from the
schema, no `AmbiguousColumnMapping` error exists: the code prints a warning
and falls back to the first schema column, and the spatial join itself (line
100) has already run.  If the fallback column also occurs in the facilities
frame the suffixed groupby key exists and the pipeline completes, returning a
scored frame for any nonempty facility set; otherwise the `groupby` of line
113 raises an incidental `KeyError` and the run aborts. -/
theorem ambiguous_column_fallback (proj : PtQ → PtQ) (districts : DFrame)
    (facilities : FacFrame) (hcol : district_col districts.cols = none) :
    district_col_used districts.cols = districts.cols.headD ("") ∧
    district_col_warned districts.cols = true ∧
    (fac_frame_cols.contains (districts.cols.headD ("")) = false →
      calculate_accessibility_score proj districts facilities = none) ∧
    (fac_frame_cols.contains (districts.cols.headD ("")) = true →
      facilities.rows ≠ [] →
      (calculate_accessibility_score proj districts facilities).isSome = true) := by
  have hused : district_col_used districts.cols = districts.cols.headD ("") := by
    unfold district_col_used
    rw [hcol]
  refine ⟨hused, ?_, ?_, ?_⟩
  · unfold district_col_warned
    rw [hcol]
    rfl
  · intro hmem
    unfold calculate_accessibility_score
    rw [hused]
    simp at hmem
    simp [hmem]
  · intro hmem hf
    obtain ⟨fc, frows⟩ := facilities
    cases frows with
    | nil => exact absurd rfl hf
    | cons g gs =>
      unfold calculate_accessibility_score calculate_scored_rows
        nearest_facility_analysis
      rw [hused]
      simp at hmem
      simp [hmem]

/-- Witness for C8 amended: the schema `["ilce_no"]` (fallback column not a
facilities column) makes the run abort with the groupby `KeyError`, while the
schema `["type"]` (fallback column shared with the facilities frame) lets the
pipeline return a scored frame. -/
theorem ambiguous_column_fallback_witness :
    calculate_accessibility_score id
      (DFrame.mk ["ilce_no"] [⟨[("ilce_no", "34")], ⟨0, 0, 2, 2⟩⟩])
      (FacFrame.mk CRS.epsg4326 [⟨"K", "clinic", ⟨1, 1⟩⟩]) = none ∧
    (calculate_accessibility_score id
      (DFrame.mk ["type"] [⟨[("type", "34")], ⟨0, 0, 2, 2⟩⟩])
      (FacFrame.mk CRS.epsg4326 [⟨"K", "clinic", ⟨1, 1⟩⟩])).isSome = true :=
  ⟨(ambiguous_column_fallback id
      (DFrame.mk ["ilce_no"] [⟨[("ilce_no", "34")], ⟨0, 0, 2, 2⟩⟩])
      (FacFrame.mk CRS.epsg4326 [⟨"K", "clinic", ⟨1, 1⟩⟩]) rfl).2.2.1 (by decide),
    (ambiguous_column_fallback id
      (DFrame.mk ["type"] [⟨[("type", "34")], ⟨0, 0, 2, 2⟩⟩])
      (FacFrame.mk CRS.epsg4326 [⟨"K", "clinic", ⟨1, 1⟩⟩]) rfl).2.2.2
      (by decide) (by simp)⟩

/-- Membership in an insertion step. -/
theorem mem_insertByDist (x y : NearRow) (l : List NearRow) :
    y ∈ insertByDist x l → y = x ∨ y ∈ l := by
  induction l with
  | nil => intro h; simp [insertByDist] at h; exact Or.inl h
  | cons b t ih =>
    intro h
    unfold insertByDist at h
    split_ifs at h
    · rcases List.mem_cons.mp h with h1 | h1
      · exact Or.inl h1
      · exact Or.inr h1
    · rcases List.mem_cons.mp h with h1 | h1
      · exact Or.inr (List.mem_cons.mpr (Or.inl h1))
      · rcases ih h1 with h2 | h2
        · exact Or.inl h2
        · exact Or.inr (List.mem_cons.mpr (Or.inr h2))

/-- Sorting by distance creates no new rows. -/
theorem mem_sortByDist (y : NearRow) (l : List NearRow) :
    y ∈ sortByDist l → y ∈ l := by
  induction l with
  | nil => intro h; simp [sortByDist] at h
  | cons b t ih =>
    intro h
    unfold sortByDist at h
    rcases mem_insertByDist b y (sortByDist t) h with h1 | h1
    · exact List.mem_cons.mpr (Or.inl h1)
    · exact List.mem_cons.mpr (Or.inr (ih h1))

/-- C9 counterexample: `find_nearest` computes its distance column directly in
the frame's own coordinate system with no reprojection, so on a geographic
(EPSG:4326) facility frame the distance it reports is in angular degrees,
not a metric distance. -/
theorem find_nearest_reports_angular_units :
    ((find_nearest ⟨0, 0⟩ ⟨CRS.epsg4326, [⟨"Taksim Hastanesi", "hastane", ⟨1, 0⟩⟩]⟩ 1).map
      (fun r => r.distance.unit)) = [LUnit.degrees] ∧
    LUnit.degrees.metric = false ∧ LUnit.degrees ≠ LUnit.meters := by
  refine ⟨rfl, rfl, by decide⟩

/-- C9 amended: every distance reported by `find_nearest` is expressed in the
native unit of the input frame's CRS (angular degrees for a geographic frame),
because no reprojection occurs; by contrast `nearest_facility_analysis`
reprojects to EPSG:32635 first and always reports metric kilometers. -/
theorem distance_unit_provenance (loc : PtQ) (gdf : FacFrame) (k : ℕ)
    {α : Type} (proj : PtQ → PtQ) (points : PFrame α) (facs : FacFrame) :
    (∀ r ∈ find_nearest loc gdf k, r.distance.unit = gdf.crs.units) ∧
    (∀ t ∈ (nearest_facility_analysis proj points facs).getD [],
      t.2.2.unit = LUnit.kilometers) := by
  constructor
  · intro r hr
    have hr2 : r ∈ sortByDist (gdf.rows.map
        (fun f => NearRow.mk f.name f.ftype ⟨dist2 f.geom loc, gdf.crs.units⟩)) :=
      List.take_subset k _ hr
    have hr3 := mem_sortByDist r _ hr2
    rcases List.mem_map.mp hr3 with ⟨f, _, hf⟩
    rw [← hf]
  · intro t ht
    obtain ⟨fc, frows⟩ := facs
    cases frows with
    | nil => simp [nearest_facility_analysis] at ht
    | cons g gs =>
      unfold nearest_facility_analysis at ht
      simp only [List.map_cons, Option.getD_some] at ht
      rcases List.mem_map.mp ht with ⟨pr, _, hpr⟩
      rw [← hpr]

/-- Witness for C9 amended: a metric (EPSG:32635) facility frame yields
meter-united distances from `find_nearest`, and a concrete
`nearest_facility_analysis` run yields kilometer-united distances. -/
theorem distance_unit_provenance_witness :
    (∀ r ∈ find_nearest ⟨0, 0⟩ ⟨CRS.epsg32635, [⟨"A", "h", ⟨3, 4⟩⟩]⟩ 2,
      r.distance.unit = (FacFrame.mk CRS.epsg32635 [⟨"A", "h", ⟨3, 4⟩⟩]).crs.units) ∧
    (∀ t ∈ (nearest_facility_analysis (α := Unit) id ⟨CRS.epsg4326, [((), ⟨0, 0⟩)]⟩
        ⟨CRS.epsg4326, [⟨"B", "h", ⟨0, 0⟩⟩]⟩).getD [],
      t.2.2.unit = LUnit.kilometers) :=
  distance_unit_provenance ⟨0, 0⟩ (FacFrame.mk CRS.epsg32635 [⟨"A", "h", ⟨3, 4⟩⟩]) 2
    id ⟨CRS.epsg4326, [((), ⟨0, 0⟩)]⟩ ⟨CRS.epsg4326, [⟨"B", "h", ⟨0, 0⟩⟩]⟩

/-- A fold accumulating added values equals the accumulator plus the sum of
the mapped list. -/
theorem foldl_add_eq_sum_map {α : Type} (g : α → ℕ) (l : List α) :
    ∀ a : ℕ, l.foldl (fun acc d => acc + g d) a = a + (l.map g).sum := by
  induction l with
  | nil => intro a; simp
  | cons b t ih => intro a; simp only [List.foldl_cons, List.map_cons, List.sum_cons,
      ih (a + g b)]; omega

/-- Core partition count: when every facility lies within at most one district
polygon, the per-district membership counts plus the count of facilities in no
district add up to the number of facilities. -/
theorem sum_countP_add_unassigned (rows : List DRow) (facs : List FacRow)
    (hdisj : ∀ f ∈ facs, rows.countP (fun d => withinRect f.geom d.poly) ≤ 1) :
    (rows.map (fun r => facs.countP (fun f => withinRect f.geom r.poly))).sum
      + facs.countP (fun f => rows.all (fun d => !withinRect f.geom d.poly)) =
      facs.length := by
  induction facs with
  | nil => simp
  | cons f fs ih =>
    have hdisj2 : ∀ g ∈ fs, rows.countP (fun d => withinRect g.geom d.poly) ≤ 1 :=
      fun g hg => hdisj g (List.mem_cons_of_mem _ hg)
    have hsum : (rows.map (fun r => (f :: fs).countP (fun x => withinRect x.geom r.poly))).sum
        = (rows.map (fun r => fs.countP (fun x => withinRect x.geom r.poly))).sum
          + rows.countP (fun d => withinRect f.geom d.poly) := by
      have hmap : rows.map (fun r => (f :: fs).countP (fun x => withinRect x.geom r.poly))
          = rows.map (fun r => fs.countP (fun x => withinRect x.geom r.poly)
              + (if withinRect f.geom r.poly then 1 else 0)) :=
        List.map_congr_left (fun r _ => List.countP_cons _ _ _)
      rw [hmap, List.sum_map_add, sum_map_ite_eq_countP]
    have hun : (f :: fs).countP (fun x => rows.all (fun d => !withinRect x.geom d.poly))
        = fs.countP (fun x => rows.all (fun d => !withinRect x.geom d.poly))
          + (if rows.all (fun d => !withinRect f.geom d.poly) then 1 else 0) :=
      List.countP_cons _ _ _
    have hkey : rows.countP (fun d => withinRect f.geom d.poly)
        + (if rows.all (fun d => !withinRect f.geom d.poly) then 1 else 0) = 1 := by
      by_cases hz : rows.countP (fun d => withinRect f.geom d.poly) = 0
      · have hall : rows.all (fun d => !withinRect f.geom d.poly) = true := by
          rw [List.all_eq_true]
          intro d hd
          have := List.countP_eq_zero.mp hz d hd
          simp only [Bool.not_eq_true] at this ⊢
          simp [this]
        rw [hz, hall]
        simp
      · have h1 : rows.countP (fun d => withinRect f.geom d.poly) = 1 := by
          have := hdisj f (List.mem_cons_self _ _)
          omega
        have hex : ∃ d ∈ rows, withinRect f.geom d.poly = true :=
          List.countP_pos_iff.mp (by omega)
        have hall : rows.all (fun d => !withinRect f.geom d.poly) = false := by
          obtain ⟨d, hd, hw⟩ := hex
          by_contra hcon
          simp only [Bool.not_eq_false, List.all_eq_true] at hcon
          have := hcon d hd
          simp [hw] at this
        rw [h1, hall]
        simp
    rw [hsum, hun, List.length_cons, ← ih hdisj2]
    omega

/-- `sjoin_count` written as a sum over the name-filtered district rows. -/
theorem sjoin_count_eq_sum (facilities : FacFrame) (districts : List DRow)
    (col n : String) :
    sjoin_count facilities districts col n
      = ((districts.filter (fun d => lookupAttr d col == n)).map
          (fun d => facilities.rows.countP (fun f => withinRect f.geom d.poly))).sum := by
  unfold sjoin_count
  rw [foldl_add_eq_sum_map]
  omega

/-- C2 counterexample: with two overlapping district polygons and a single
facility inside both, the spatial join counts the facility twice, so the sum
of per-district counts plus the unassigned count is 2, not the facility-set
size 1 that the claim asserts for every facility and district set. -/
theorem sjoin_overlap_double_counts :
    (([⟨[("name", "A")], ⟨0, 0, 4, 4⟩⟩, ⟨[("name", "B")], ⟨2, 0, 6, 4⟩⟩] : List DRow).map
      (fun r => sjoin_count (FacFrame.mk CRS.epsg4326 [⟨"F", "h", ⟨3, 1⟩⟩])
        [⟨[("name", "A")], ⟨0, 0, 4, 4⟩⟩, ⟨[("name", "B")], ⟨2, 0, 6, 4⟩⟩]
        "name" (lookupAttr r "name"))).sum
      + unassigned_count (FacFrame.mk CRS.epsg4326 [⟨"F", "h", ⟨3, 1⟩⟩])
        [⟨[("name", "A")], ⟨0, 0, 4, 4⟩⟩, ⟨[("name", "B")], ⟨2, 0, 6, 4⟩⟩] = 2 ∧
    (FacFrame.mk CRS.epsg4326 [⟨"F", "h", ⟨3, 1⟩⟩]).rows.length = 1 ∧
    ¬ (2 : ℕ) = 1 := by
  refine ⟨by decide, by decide, by decide⟩

/-- C2 amended: provided district name values are pairwise distinct and every
facility lies within at most one district polygon (districts with disjoint
interiors), the sum of per-district facility counts plus the number of
facilities within no district equals the facility-set size; moreover a
facility outside all districts changes no per-district count — it is dropped
from the join result without any computed diagnostic. -/
theorem sjoin_partition_count_identity (facilities : FacFrame)
    (districts : List DRow) (col : String)
    (hnd : (districts.map (fun d => lookupAttr d col)).Nodup)
    (hdisj : ∀ f ∈ facilities.rows,
      districts.countP (fun d => withinRect f.geom d.poly) ≤ 1) :
    (districts.map (fun r => sjoin_count facilities districts col
        (lookupAttr r col))).sum
      + unassigned_count facilities districts = facilities.rows.length ∧
    (∀ f : FacRow, (∀ d ∈ districts, withinRect f.geom d.poly = false) →
      districts.map (fun r => sjoin_count ⟨facilities.crs, f :: facilities.rows⟩
          districts col (lookupAttr r col))
        = districts.map (fun r => sjoin_count facilities districts col
          (lookupAttr r col))) := by
  constructor
  · have hmap : districts.map (fun r => sjoin_count facilities districts col
        (lookupAttr r col))
        = districts.map (fun r => facilities.rows.countP
          (fun f => withinRect f.geom r.poly)) := by
      apply List.map_congr_left
      intro r hr
      rw [sjoin_count_eq_sum, filter_attr_eq_single districts col r hnd hr]
      simp
    rw [hmap]
    exact sum_countP_add_unassigned districts facilities.rows hdisj
  · intro f hout
    apply List.map_congr_left
    intro r _
    rw [sjoin_count_eq_sum, sjoin_count_eq_sum]
    apply congrArg
    apply List.map_congr_left
    intro d hd
    have hd2 : d ∈ districts := List.mem_of_mem_filter hd
    show (f :: facilities.rows).countP _ = _
    rw [List.countP_cons]
    simp [hout d hd2]

/-- Witness for C2 amended: two disjoint districts, one facility inside the
first, one facility outside both; the counts sum to 1, the unassigned count
is 1, and together they equal the facility-set size 2. -/
theorem sjoin_partition_count_identity_witness :
    (([⟨[("name", "A")], ⟨0, 0, 2, 2⟩⟩, ⟨[("name", "B")], ⟨4, 0, 6, 2⟩⟩] : List DRow).map
      (fun r => sjoin_count
        (FacFrame.mk CRS.epsg4326 [⟨"F1", "h", ⟨1, 1⟩⟩, ⟨"F2", "h", ⟨3, 1⟩⟩])
        [⟨[("name", "A")], ⟨0, 0, 2, 2⟩⟩, ⟨[("name", "B")], ⟨4, 0, 6, 2⟩⟩]
        "name" (lookupAttr r "name"))).sum
      + unassigned_count
        (FacFrame.mk CRS.epsg4326 [⟨"F1", "h", ⟨1, 1⟩⟩, ⟨"F2", "h", ⟨3, 1⟩⟩])
        [⟨[("name", "A")], ⟨0, 0, 2, 2⟩⟩, ⟨[("name", "B")], ⟨4, 0, 6, 2⟩⟩]
      = (FacFrame.mk CRS.epsg4326
          [⟨"F1", "h", ⟨1, 1⟩⟩, ⟨"F2", "h", ⟨3, 1⟩⟩]).rows.length ∧
    (∀ f : FacRow, (∀ d ∈ ([⟨[("name", "A")], ⟨0, 0, 2, 2⟩⟩,
        ⟨[("name", "B")], ⟨4, 0, 6, 2⟩⟩] : List DRow), withinRect f.geom d.poly = false) →
      ([⟨[("name", "A")], ⟨0, 0, 2, 2⟩⟩, ⟨[("name", "B")], ⟨4, 0, 6, 2⟩⟩] : List DRow).map
        (fun r => sjoin_count ⟨(FacFrame.mk CRS.epsg4326
            [⟨"F1", "h", ⟨1, 1⟩⟩, ⟨"F2", "h", ⟨3, 1⟩⟩]).crs,
          f :: (FacFrame.mk CRS.epsg4326
            [⟨"F1", "h", ⟨1, 1⟩⟩, ⟨"F2", "h", ⟨3, 1⟩⟩]).rows⟩
          [⟨[("name", "A")], ⟨0, 0, 2, 2⟩⟩, ⟨[("name", "B")], ⟨4, 0, 6, 2⟩⟩]
          "name" (lookupAttr r "name"))
        = ([⟨[("name", "A")], ⟨0, 0, 2, 2⟩⟩, ⟨[("name", "B")], ⟨4, 0, 6, 2⟩⟩] : List DRow).map
          (fun r => sjoin_count (FacFrame.mk CRS.epsg4326
              [⟨"F1", "h", ⟨1, 1⟩⟩, ⟨"F2", "h", ⟨3, 1⟩⟩])
            [⟨[("name", "A")], ⟨0, 0, 2, 2⟩⟩, ⟨[("name", "B")], ⟨4, 0, 6, 2⟩⟩]
            "name" (lookupAttr r "name"))) :=
  sjoin_partition_count_identity
    (FacFrame.mk CRS.epsg4326 [⟨"F1", "h", ⟨1, 1⟩⟩, ⟨"F2", "h", ⟨3, 1⟩⟩])
    [⟨[("name", "A")], ⟨0, 0, 2, 2⟩⟩, ⟨[("name", "B")], ⟨4, 0, 6, 2⟩⟩]
    "name" (by decide) (by decide)

/-- Mapping over a list zipped with two different per-element images agrees
whenever the two row transformations agree pointwise. -/
theorem map_zip_map_eq {α β γ δ : Type} (l : List α) (g1 : α → β) (g2 : α → γ)
    (F1 : α × β → δ) (F2 : α × γ → δ)
    (h : ∀ a : α, F1 (a, g1 a) = F2 (a, g2 a)) :
    (l.zip (l.map g1)).map F1 = (l.zip (l.map g2)).map F2 := by
  induction l with
  | nil => rfl
  | cons a t ih => simp only [List.map_cons, List.zip_cons_cons, h a, ih]

/-- Shape of a successful `nearest_facility_analysis` run on a nonempty
facility list, with its internal projected-points map fused. -/
theorem nfa_some_shape {α : Type} (proj : PtQ → PtQ) (points : PFrame α)
    (fc : CRS) (g : FacRow) (gs : List FacRow) :
    nearest_facility_analysis proj points ⟨fc, g :: gs⟩ =
      some ((points.rows.zip (points.rows.map (fun r =>
        ((gs.map (fun f => proj f.geom)).foldl
            (fun acc q => min acc (dist2 (proj r.2) q))
            (dist2 (proj r.2) (proj g.geom)) / 1000000 : ℚ)))).map
        (fun pr => (pr.1.1, pr.1.2, (⟨pr.2, LUnit.kilometers⟩ : Measure)))) := by
  unfold nearest_facility_analysis
  simp only [List.map_cons]
  apply congrArg
  rw [List.map_map]
  exact map_zip_map_eq points.rows _ _ _ _ (fun a => rfl)

/-- C10: on a nonempty facility set, `nearest_facility_analysis` succeeds and
returns a frame with exactly the input's rows — payload columns, geometries,
count and order all preserved (the input itself, being a pure value, is
untouched; the code likewise mutates only a copy) — extended by one
`nearest_hospital_km` measure per row whose value is the distance (in squared
kilometers, i.e. squared meters / 10⁶) from that row's projected point to the
nearest projected facility: it is one of the facility distances and is a
lower bound of them all. -/
theorem nearest_analysis_preserves_frame {α : Type} (proj : PtQ → PtQ)
    (points : PFrame α) (facilities : FacFrame) (hne : facilities.rows ≠ []) :
    ∃ out, nearest_facility_analysis proj points facilities = some out ∧
      out.map (fun t => (t.1, t.2.1)) = points.rows ∧
      out.length = points.rows.length ∧
      ∀ i (hi : i < out.length) (hp : i < points.rows.length),
        (out[i].2.2.unit = LUnit.kilometers ∧
          1000000 * out[i].2.2.value2 ∈
            facilities.rows.map (fun f => dist2 (proj points.rows[i].2) (proj f.geom)) ∧
          ∀ x ∈ facilities.rows.map (fun f => dist2 (proj points.rows[i].2) (proj f.geom)),
            1000000 * out[i].2.2.value2 ≤ x) := by
  obtain ⟨fc, frows⟩ := facilities
  cases frows with
  | nil => exact absurd rfl hne
  | cons g gs =>
    refine ⟨_, nfa_some_shape proj points fc g gs, ?_, ?_, ?_⟩
    · rw [List.map_map]
      have hcomp : ((fun (t : α × PtQ × Measure) => (t.1, t.2.1)) ∘
          (fun (pr : (α × PtQ) × ℚ) => (pr.1.1, pr.1.2,
            (⟨pr.2, LUnit.kilometers⟩ : Measure)))) = Prod.fst := by
        funext pr
        rfl
      rw [hcomp]
      exact List.map_fst_zip _ _ (by simp)
    · simp
    · intro i hi hp
      have hi2 : i < (points.rows.zip (points.rows.map (fun r =>
          ((gs.map (fun f => proj f.geom)).foldl
              (fun acc q => min acc (dist2 (proj r.2) q))
              (dist2 (proj r.2) (proj g.geom)) / 1000000 : ℚ)))).length := by
        simpa using hi
      simp only [List.getElem_map, List.getElem_zip]
      refine ⟨trivial, ?_, ?_⟩
      · show (1000000 : ℚ) * ((gs.map (fun f => proj f.geom)).foldl
            (fun acc q => min acc (dist2 (proj points.rows[i].2) q))
            (dist2 (proj points.rows[i].2) (proj g.geom)) / 1000000) ∈ _
        rw [mul_comm, div_mul_cancel₀ _ (by norm_num : (1000000 : ℚ) ≠ 0)]
        rw [foldl_min_map (fun q => dist2 (proj points.rows[i].2) q)]
        have hmem := foldl_min_mem ((gs.map (fun f => proj f.geom)).map
            (fun q => dist2 (proj points.rows[i].2) q))
          (dist2 (proj points.rows[i].2) (proj g.geom))
        simpa [List.map_cons, List.map_map, Function.comp] using hmem
      · intro x hx
        show (1000000 : ℚ) * ((gs.map (fun f => proj f.geom)).foldl
            (fun acc q => min acc (dist2 (proj points.rows[i].2) q))
            (dist2 (proj points.rows[i].2) (proj g.geom)) / 1000000) ≤ x
        rw [mul_comm, div_mul_cancel₀ _ (by norm_num : (1000000 : ℚ) ≠ 0)]
        rw [foldl_min_map (fun q => dist2 (proj points.rows[i].2) q)]
        apply foldl_min_le ((gs.map (fun f => proj f.geom)).map
            (fun q => dist2 (proj points.rows[i].2) q))
          (dist2 (proj points.rows[i].2) (proj g.geom)) x
        simpa [List.map_cons, List.map_map, Function.comp] using hx

/-- Witness for C10: one query point and one facility; the analysis succeeds
and preserves the point row while attaching the kilometer measure. -/
theorem nearest_analysis_preserves_frame_witness :
    ∃ out, nearest_facility_analysis (α := Unit) id
        ⟨CRS.epsg4326, [((), ⟨0, 0⟩)]⟩ ⟨CRS.epsg4326, [⟨"H", "h", ⟨0, 3⟩⟩]⟩ = some out ∧
      out.map (fun t => (t.1, t.2.1)) = (PFrame.mk CRS.epsg4326 [((), ⟨0, 0⟩)]).rows ∧
      out.length = (PFrame.mk CRS.epsg4326 [((), ⟨0, 0⟩)] : PFrame Unit).rows.length ∧
      ∀ i (hi : i < out.length)
        (hp : i < (PFrame.mk CRS.epsg4326 [((), ⟨0, 0⟩)] : PFrame Unit).rows.length),
        (out[i].2.2.unit = LUnit.kilometers ∧
          1000000 * out[i].2.2.value2 ∈
            (FacFrame.mk CRS.epsg4326 [⟨"H", "h", ⟨0, 3⟩⟩]).rows.map
              (fun f => dist2 (id (PFrame.mk CRS.epsg4326
                [((), ⟨0, 0⟩)] : PFrame Unit).rows[i].2) (id f.geom)) ∧
          ∀ x ∈ (FacFrame.mk CRS.epsg4326 [⟨"H", "h", ⟨0, 3⟩⟩]).rows.map
              (fun f => dist2 (id (PFrame.mk CRS.epsg4326
                [((), ⟨0, 0⟩)] : PFrame Unit).rows[i].2) (id f.geom)),
            1000000 * out[i].2.2.value2 ≤ x) :=
  nearest_analysis_preserves_frame id ⟨CRS.epsg4326, [((), ⟨0, 0⟩)]⟩
    ⟨CRS.epsg4326, [⟨"H", "h", ⟨0, 3⟩⟩]⟩ (by simp)
